import Mathlib

/-!
Verification of the Scale scheduling core: a shallow embedding of
src/scale/scheduler/resources/manager.py (ResourceManager) and
src/scale/scheduler/scale_scheduler.py (ScaleScheduler callbacks), with the
collaborator classes that are not part of the shown sources (AgentResources,
NodeResources, RunningJobExecution, the node registry, the reconciliation
manager) modelled from the specification.

Python dicts are embedded as association lists in insertion order; dict
update keeps an existing key in place and appends a fresh key at the end.
`django.utils.timezone.now()` values are passed in explicitly as natural
numbers (seconds); scalar resource quantities are embedded as integers
(the claims under verification only involve exact arithmetic).
-/

/-- Association-list lookup: first entry with the given key (Python dict lookup). -/
def alookup {κ α : Type} [DecidableEq κ] : List (κ × α) → κ → Option α
  | [], _ => none
  | p :: rest, k => if p.1 = k then some p.2 else alookup rest k

/-- Python `key in dict`. -/
def acontains {κ α : Type} [DecidableEq κ] (m : List (κ × α)) (k : κ) : Bool :=
  (alookup m k).isSome

/-- Python `dict[key] = value`: replace in place when the key exists, else append. -/
def ainsert {κ α : Type} [DecidableEq κ] (m : List (κ × α)) (k : κ) (v : α) :
    List (κ × α) :=
  if acontains m k then m.map (fun p => if p.1 = k then (k, v) else p) else m ++ [(k, v)]

/-- Python `del dict[key]` (total: removing an absent key is a no-op here;
the embedded code only deletes keys it has checked or iterated). -/
def aerase {κ α : Type} [DecidableEq κ] (m : List (κ × α)) (k : κ) : List (κ × α) :=
  m.filter (fun p => if p.1 = k then false else true)

/-- Replace the value at a key, leaving the map unchanged when the key is absent
(models mutating an object already held by a Python dict). -/
def aupdate {κ α : Type} [DecidableEq κ] (m : List (κ × α)) (k : κ) (v : α) :
    List (κ × α) :=
  m.map (fun p => if p.1 = k then (k, v) else p)

/-- NodeResources (job/resources.py, not under src): vector of cpu/memory/disk
quantities with component-wise arithmetic, per spec section 4.1. -/
structure NodeResources where
  cpus : Int
  mem : Int
  disk : Int
deriving DecidableEq, Repr

def NodeResources.zero : NodeResources := ⟨0, 0, 0⟩

def NodeResources.add (a b : NodeResources) : NodeResources :=
  ⟨a.cpus + b.cpus, a.mem + b.mem, a.disk + b.disk⟩

def NodeResources.cmin (a b : NodeResources) : NodeResources :=
  ⟨min a.cpus b.cpus, min a.mem b.mem, min a.disk b.disk⟩

def NodeResources.cmax (a b : NodeResources) : NodeResources :=
  ⟨max a.cpus b.cpus, max a.mem b.mem, max a.disk b.disk⟩

/-- ResourceOffer (scheduler/offer/offer.py, constructed in
scale_scheduler.py line 192 as ResourceOffer(offer_id, agent_id, resources)). -/
structure ResourceOffer where
  id : String
  agent_id : String
  resources : NodeResources
deriving DecidableEq, Repr

/-- Task as seen by resource accounting (spec section 3): task id, owning agent
id, and the NodeResources the task consumes (named SchedTask because Lean
reserves the name Task) (the task-to-resources lookup is an
external collaborator responsibility, so the quantity is carried on the task). -/
structure SchedTask where
  id : String
  agent_id : String
  resources : NodeResources
deriving DecidableEq, Repr

def sumOfferResources : List ResourceOffer → NodeResources
  | [] => NodeResources.zero
  | o :: rest => NodeResources.add o.resources (sumOfferResources rest)

def sumTaskResources : List SchedTask → NodeResources
  | [] => NodeResources.zero
  | t :: rest => NodeResources.add t.resources (sumTaskResources rest)

/-- Modelled from the spec: AgentResources (scheduler/resources/agent.py is not
under src). Spec sections 3 and 4.2: per-agent ledger holding the absorbed
offer set (keyed by offer id), the running total, rolling min/max watermark
bounds, and an optional shortage. -/
structure AgentResources where
  agent_id : String
  offers : List (String × ResourceOffer)
  running : NodeResources
  watermark_min : NodeResources
  watermark_max : NodeResources
  shortage : Option NodeResources
deriving DecidableEq, Repr

/-- Modelled from the spec: a new agent starts with no offers, nothing running
and an empty watermark window (created on first offer, spec section 3). -/
def AgentResources.init (aid : String) : AgentResources :=
  ⟨aid, [], NodeResources.zero, NodeResources.zero, NodeResources.zero, none⟩

/-- Sum of the NodeResources of the absorbed offers (spec section 3: `offered`
reflects the sum of NodeResources from unconsumed offers for this agent). -/
def AgentResources.offered (a : AgentResources) : NodeResources :=
  sumOfferResources (a.offers.map Prod.snd)

/-- Modelled from the spec (section 4.2): `refreshResources(offers, tasks)`
replaces the offered set with the given offers and `running` with the sum of
the given tasks' resources (a full replace), then widens the watermark bounds
to include the current running+offered total (spec section 3). -/
def AgentResources.refresh_resources (a : AgentResources) (offers : List ResourceOffer)
    (tasks : List SchedTask) : AgentResources :=
  let a1 : AgentResources :=
    { a with offers := offers.map (fun o => (o.id, o)), running := sumTaskResources tasks }
  let total := NodeResources.add a1.running a1.offered
  { a1 with watermark_min := NodeResources.cmin a1.watermark_min total,
            watermark_max := NodeResources.cmax a1.watermark_max total }

/-- Modelled from the spec (section 4.2): `resetWatermark` collapses the rolling
min/max window back to the current running+offered total. -/
def AgentResources.reset_watermark (a : AgentResources) : AgentResources :=
  let total := NodeResources.add a.running a.offered
  { a with watermark_min := total, watermark_max := total }

/-- Modelled from the spec (section 4.2): `removeOffers(ids)` drops the given
offer ids from the internal offered-set. -/
def AgentResources.remove_offers (a : AgentResources) (ids : List String) :
    AgentResources :=
  { a with offers := a.offers.filter (fun p => if p.1 ∈ ids then false else true) }

/-- Modelled from the spec (section 4.2): `setShortage`. -/
def AgentResources.set_shortage (a : AgentResources) (s : Option NodeResources) :
    AgentResources :=
  { a with shortage := s }

/-- Modelled from the spec (section 4.2): `generateStatusJson` accumulates this
agent's running, offered and watermark contribution into the cluster-wide
totals passed through the fold. -/
def AgentResources.generate_status_json (a : AgentResources)
    (tr toff tw : NodeResources) : NodeResources × NodeResources × NodeResources :=
  (NodeResources.add tr a.running, NodeResources.add toff a.offered,
   NodeResources.add tw a.watermark_max)

/-- manager.py line 13: WATERMARK_RESET_PERIOD = timedelta(minutes=5),
embedded in seconds. -/
def WATERMARK_RESET_PERIOD : Nat := 300

/-- ResourceManager state (manager.py lines 19-27): the agent map, the
timestamp of the last watermark reset (initially None) and the pending
new-offer buffer keyed by offer id. -/
structure ResourceManager where
  agent_resources : List (String × AgentResources)
  last_watermark_reset : Option Nat
  new_offers : List (String × ResourceOffer)
deriving DecidableEq, Repr

/-- manager.py lines 19-27: constructor. -/
def ResourceManager.init : ResourceManager := ⟨[], none, []⟩

/-- manager.py lines 29-38: add_new_offers stores each offer in the pending
buffer under its id (last write wins on duplicate ids). -/
def ResourceManager.add_new_offers (st : ResourceManager) (offers : List ResourceOffer) :
    ResourceManager :=
  { st with new_offers := offers.foldl (fun m o => ainsert m o.id o) st.new_offers }

/-- manager.py lines 40-64: generate_status_json folds every listed node's
agent contribution (skipping agent ids with no AgentResources entry) into
cluster running/offered/watermark totals, starting from zero. The input is the
list of agent ids appearing in status_dict['nodes']; the result is the
(running, offered, watermark) totals reported under status_dict['resources']. -/
def ResourceManager.generate_status_json (st : ResourceManager)
    (node_agent_ids : List String) : NodeResources × NodeResources × NodeResources :=
  node_agent_ids.foldl
    (fun t aid =>
      match alookup st.agent_resources aid with
      | some ar => ar.generate_status_json t.1 t.2.1 t.2.2
      | none => t)
    (NodeResources.zero, NodeResources.zero, NodeResources.zero)

/-- manager.py lines 66-82: lost_agent removes every pending offer whose
agent_id is the lost agent (the buffer's keys are always the offers' own ids,
so deleting by offer id equals filtering on the stored offer's agent_id) and
deletes the agent's AgentResources entry. -/
def ResourceManager.lost_agent (st : ResourceManager) (aid : String) : ResourceManager :=
  { st with
    new_offers := st.new_offers.filter (fun p => if p.2.agent_id = aid then false else true),
    agent_resources := aerase st.agent_resources aid }

/-- manager.py lines 99-102: the per-agent offer list produced by the grouping
loop is exactly the pending offers with that agent id, in buffer order. -/
def offersForAgent (offers : List ResourceOffer) (aid : String) : List ResourceOffer :=
  offers.filter (fun o => if o.agent_id = aid then true else false)

/-- manager.py lines 103-106: the per-agent task list produced by the grouping
loop is exactly the given tasks with that agent id, in input order. -/
def tasksForAgent (tasks : List SchedTask) (aid : String) : List SchedTask :=
  tasks.filter (fun t => if t.agent_id = aid then true else false)

/-- manager.py lines 84-126: refresh_agent_resources. Swaps out and empties the
pending-offer buffer, creates an AgentResources entry for every offer whose
agent is new, refreshes every agent with its grouped offers and tasks, then
checks the watermark-reset period. The constructor leaves
last_watermark_reset = None and line 123 adds a timedelta to it, so when it is
None the check raises TypeError; the raise happens after the buffer swap and
the refresh loop, so those effects persist. Returns the manager state as left
by the call together with the exception it raised, if any. -/
def ResourceManager.refresh_agent_resources (st : ResourceManager) (tasks : List SchedTask)
    (when : Nat) : ResourceManager × Option String :=
  let offerVals := st.new_offers.map Prod.snd
  let agents1 :=
    offerVals.foldl
      (fun m o =>
        if acontains m o.agent_id then m else m ++ [(o.agent_id, AgentResources.init o.agent_id)])
      st.agent_resources
  let agents2 :=
    agents1.map
      (fun p =>
        (p.1, p.2.refresh_resources (offersForAgent offerVals p.2.agent_id)
                (tasksForAgent tasks p.2.agent_id)))
  match st.last_watermark_reset with
  | none =>
      (⟨agents2, none, []⟩,
       some "TypeError: unsupported operand type for +: NoneType and timedelta")
  | some last =>
      if when > last + WATERMARK_RESET_PERIOD then
        (⟨agents2.map (fun p => (p.1, p.2.reset_watermark)), some when, []⟩, none)
      else
        (⟨agents2, some last, []⟩, none)

/-- manager.py lines 128-142: remove_offers deletes the given ids from the
pending buffer (skipping absent ids) and asks every agent to drop them from
its absorbed offer set. -/
def ResourceManager.remove_offers (st : ResourceManager) (offer_ids : List String) :
    ResourceManager :=
  { st with
    new_offers := st.new_offers.filter (fun p => if p.1 ∈ offer_ids then false else true),
    agent_resources := st.agent_resources.map (fun p => (p.1, p.2.remove_offers offer_ids)) }

/-- manager.py lines 144-156: set_agent_shortages sets the mapped shortage on
each agent present in the map and clears it on every other agent. -/
def ResourceManager.set_agent_shortages (st : ResourceManager)
    (agent_shortages : List (String × NodeResources)) : ResourceManager :=
  { st with
    agent_resources := st.agent_resources.map
      (fun p =>
        match alookup agent_shortages p.1 with
        | some s => (p.1, p.2.set_shortage (some s))
        | none => (p.1, p.2.set_shortage none)) }

/-- Mesos task states appearing in statusUpdate (scale_scheduler.py
lines 244-278). -/
inductive MesosTaskState where
  | TASK_STAGING
  | TASK_STARTING
  | TASK_RUNNING
  | TASK_FINISHED
  | TASK_FAILED
  | TASK_KILLED
  | TASK_LOST
  | TASK_ERROR
deriving DecidableEq, Repr

/-- The fields of a Mesos status update that statusUpdate consumes: the task
id, the task state, the parsed exit code (utils.parse_exit_code, which may be
absent) and the status timestamp (utils.get_status_timestamp). -/
structure TaskStatus where
  task_id : String
  state : MesosTaskState
  exit_code : Option Int
  timestamp : Nat
deriving DecidableEq, Repr

/-- Modelled from the spec: TaskResults
(job/execution/running/tasks/results.py is not under src): the results object
built in statusUpdate lines 265-267 with task id, exit code and timestamp. -/
structure TaskResults where
  task_id : String
  exit_code : Option Int
  when : Nat
deriving DecidableEq, Repr

/-- Modelled from the spec (section 3): states of a RunningJobExecution. -/
inductive JobExeState where
  | scheduled
  | running
  | finished
  | failed
  | lost
deriving DecidableEq, Repr

/-- Modelled from the spec (sections 3 and 6): a running job execution, the
collaborator state machine driven by the scheduler callbacks. Besides the
execution id, owning node id, state, current task id and the results recorded
by task_complete, two flags model the collaborator's failure behaviour:
db_write_fails makes the durable-storage write inside execution_lost raise
DatabaseError, and transitions_raise makes any status-update transition raise
an exception. -/
structure RunningJobExe where
  id : Nat
  node_id : Nat
  state : JobExeState
  current_task : Option String
  completed : Option TaskResults
  db_write_fails : Bool
  transitions_raise : Bool
deriving DecidableEq, Repr

/-- Modelled from the spec (section 3): task_start fires on a RUNNING callback
and moves the execution to the running state. -/
def RunningJobExe.task_start (e : RunningJobExe) (tid : String) (when : Nat) :
    Except Unit RunningJobExe :=
  if e.transitions_raise then Except.error () else Except.ok { e with state := JobExeState.running }

/-- Modelled from the spec (section 3): task_complete fires on a FINISHED
callback, records the results and moves the execution to the finished state. -/
def RunningJobExe.task_complete (e : RunningJobExe) (results : TaskResults) :
    Except Unit RunningJobExe :=
  if e.transitions_raise then Except.error ()
  else Except.ok { e with state := JobExeState.finished, completed := some results }

/-- Modelled from the spec (section 3): task_fail fires on ERROR/FAILED/KILLED
callbacks and moves the execution to the failed state. -/
def RunningJobExe.task_fail (e : RunningJobExe) (results : TaskResults) :
    Except Unit RunningJobExe :=
  if e.transitions_raise then Except.error () else Except.ok { e with state := JobExeState.failed }

/-- Modelled from the spec (section 3): task_lost fires on a LOST callback and
moves the execution to the lost state. -/
def RunningJobExe.task_lost (e : RunningJobExe) (tid : String) :
    Except Unit RunningJobExe :=
  if e.transitions_raise then Except.error () else Except.ok { e with state := JobExeState.lost }

/-- Modelled from the spec (section 3): execution_lost fires when the owning
agent is declared lost; it performs a durable-storage write, which raises
DatabaseError when db_write_fails, leaving the execution unchanged. -/
def RunningJobExe.execution_lost (e : RunningJobExe) (when : Nat) :
    Except Unit RunningJobExe :=
  if e.db_write_fails then Except.error () else Except.ok { e with state := JobExeState.lost }

/-- Modelled from the spec (section 3): terminal states end execution
tracking. -/
def RunningJobExe.is_finished (e : RunningJobExe) : Bool :=
  match e.state with
  | JobExeState.finished => true
  | JobExeState.failed => true
  | JobExeState.lost => true
  | _ => false

/-- Modelled from the spec (section 6): a node registry entry (scheduler node
objects expose an id used to index executions by node, and a hostname). -/
structure SchedNode where
  id : Nat
  hostname : String
deriving DecidableEq, Repr

/-- Modelled from the spec (section 6): node registry registerAgentIds adds an
entry for every agent id not yet registered. -/
def register_agent_ids (nodes : List (String × SchedNode)) (ids : List String) :
    List (String × SchedNode) :=
  ids.foldl (fun m aid => if acontains m aid then m else m ++ [(aid, ⟨m.length, aid⟩)]) nodes

/-- Modelled from the spec (section 4.4): ReconciliationTracker removeTaskId
discards the id from the set. -/
def removeTaskId (recon : List String) (tid : String) : List String :=
  recon.filter (fun t => if t = tid then false else true)

/-- Modelled from the spec (section 4.4): ReconciliationTracker addTaskIds;
duplicate adds are idempotent. -/
def addTaskIds (recon : List String) (tids : List String) : List String :=
  tids.foldl (fun r t => if t ∈ r then r else r ++ [t]) recon

/-- Modelled from the spec: CLEANUP_TASK_ID_PREFIX
(job/execution/running/tasks/cleanup_task.py is not under src); cleanup task
ids start with this marker. -/
def cleanup_task_id_start : String := "cleanup_"

/-- Python str.startswith, computed on the underlying character lists. -/
def task_id_starts_with (tid pre : String) : Bool :=
  pre.data.isPrefixOf tid.data

def parseNatDigits (l : List Char) : Nat :=
  l.foldl (fun n c => n * 10 + (c.toNat - 48)) 0

/-- Modelled from the spec: JobExecution.get_job_exe_id (job/models.py is not
under src) recovers the owning job execution id encoded at the front of the
task id. -/
def get_job_exe_id (tid : String) : Nat :=
  parseNatDigits (tid.data.takeWhile (fun c => c.isDigit))

/-- The scheduler-side shared state touched by the embedded callbacks: the
node registry (node_mgr), the running-execution registry keyed by job
execution id (running_job_mgr), the reconciliation set (recon_mgr), the record
of executions handed to cleanup (cleanup_mgr.add_job_execution) and of cleanup
task updates (cleanup_mgr.handle_task_update), the status updates handed to
task_update_mgr, the durable job-failure records written through
Queue.objects.handle_job_failure as (job execution id, error-context list,
error name) triples, the log of execution_lost invocations by execution id,
and the offer manager state (the spec maps the scheduler's offer bookkeeping
onto ResourceManager: add_new_offers, remove_offers, lostAgent). -/
structure ScaleScheduler where
  nodes : List (String × SchedNode)
  running_job_exes : List (Nat × RunningJobExe)
  recon_task_ids : List String
  cleanup_exes : List RunningJobExe
  cleanup_updates : List String
  status_updates : List TaskStatus
  job_failures : List (Nat × List String × String)
  exec_lost_log : List Nat
  rm : ResourceManager
deriving DecidableEq, Repr

/-- scale_scheduler.py lines 268-283 tail: after a transition produces the
updated execution, the registry keeps the updated object, and if it is now
finished it is removed from the registry and handed to the cleanup manager. -/
def applyExeUpdate (st : ScaleScheduler) (job_exe_id : Nat) (exe2 : RunningJobExe) :
    ScaleScheduler :=
  let st1 := { st with running_job_exes := aupdate st.running_job_exes job_exe_id exe2 }
  if exe2.is_finished then
    { st1 with running_job_exes := aerase st1.running_job_exes job_exe_id,
               cleanup_exes := st1.cleanup_exes ++ [exe2] }
  else st1

/-- scale_scheduler.py lines 261-287: the body of the try block in
statusUpdate. Resolves the execution in the registry; if found, builds the
TaskResults, applies the transition selected by the task state (defaulting a
missing FINISHED exit code to 0 at lines 272-273, and applying no transition
for states outside the dispatched set), then removes/forwards the execution if
it is finished; if not found, records a durable job failure with the built-in
scheduler-lost error and an empty error-context list (lines 286-287). An
exception in a transition surfaces as Except.error. -/
def statusUpdateTryBody (st : ScaleScheduler) (s : TaskStatus) (job_exe_id : Nat) :
    Except Unit ScaleScheduler :=
  match alookup st.running_job_exes job_exe_id with
  | some exe =>
      let results : TaskResults := ⟨s.task_id, s.exit_code, s.timestamp⟩
      match s.state with
      | MesosTaskState.TASK_RUNNING =>
          match exe.task_start s.task_id results.when with
          | Except.ok exe2 => Except.ok (applyExeUpdate st job_exe_id exe2)
          | Except.error er => Except.error er
      | MesosTaskState.TASK_FINISHED =>
          let results2 := if results.exit_code = none then { results with exit_code := some 0 }
                          else results
          match exe.task_complete results2 with
          | Except.ok exe2 => Except.ok (applyExeUpdate st job_exe_id exe2)
          | Except.error er => Except.error er
      | MesosTaskState.TASK_LOST =>
          match exe.task_lost s.task_id with
          | Except.ok exe2 => Except.ok (applyExeUpdate st job_exe_id exe2)
          | Except.error er => Except.error er
      | MesosTaskState.TASK_ERROR =>
          match exe.task_fail results with
          | Except.ok exe2 => Except.ok (applyExeUpdate st job_exe_id exe2)
          | Except.error er => Except.error er
      | MesosTaskState.TASK_FAILED =>
          match exe.task_fail results with
          | Except.ok exe2 => Except.ok (applyExeUpdate st job_exe_id exe2)
          | Except.error er => Except.error er
      | MesosTaskState.TASK_KILLED =>
          match exe.task_fail results with
          | Except.ok exe2 => Except.ok (applyExeUpdate st job_exe_id exe2)
          | Except.error er => Except.error er
      | _ => Except.ok (applyExeUpdate st job_exe_id exe)
  | none =>
      Except.ok { st with job_failures :=
        st.job_failures ++ [(job_exe_id, ([] : List String), "scheduler-lost")] }

/-- scale_scheduler.py lines 249-259: the state after the unconditional
reconciliation removal and the task_update_mgr logging that precede the try
block on the non-cleanup path. -/
def statusUpdateLogged (st : ScaleScheduler) (s : TaskStatus) : ScaleScheduler :=
  let st1 := { st with recon_task_ids := removeTaskId st.recon_task_ids s.task_id }
  { st1 with status_updates := st1.status_updates ++ [s] }

/-- scale_scheduler.py lines 227-298: statusUpdate. First removes the task id
from the reconciliation set (line 250); cleanup-task ids are routed to the
cleanup manager (lines 252-255); all other ids are logged to task_update_mgr
and resolved in the try block, and an exception there is caught and the task
id re-added to the reconciliation set (lines 288-291). -/
def ScaleScheduler.statusUpdate (st : ScaleScheduler) (s : TaskStatus) : ScaleScheduler :=
  if task_id_starts_with s.task_id cleanup_task_id_start then
    let st1 := { st with recon_task_ids := removeTaskId st.recon_task_ids s.task_id }
    { st1 with cleanup_updates := st1.cleanup_updates ++ [s.task_id] }
  else
    match statusUpdateTryBody (statusUpdateLogged st s) s (get_job_exe_id s.task_id) with
    | Except.ok st3 => st3
    | Except.error _ =>
        let st2 := statusUpdateLogged st s
        { st2 with recon_task_ids := addTaskIds st2.recon_task_ids [s.task_id] }

/-- running_job_mgr.get_job_exes_on_node: the registry's running executions on
the given node (modelled from the spec, section 6). -/
def get_job_exes_on_node (reg : List (Nat × RunningJobExe)) (node_id : Nat) :
    List RunningJobExe :=
  (reg.map Prod.snd).filter (fun e => if e.node_id = node_id then true else false)

/-- scale_scheduler.py lines 350-361: one iteration of the slaveLost loop.
Invokes execution_lost; a DatabaseError is caught and the execution's current
task id, if any, is added to the reconciliation set; then, finished executions
are removed from the registry and handed to cleanup (on DatabaseError the
execution object is unchanged). -/
def processLostJobExe (st : ScaleScheduler) (started : Nat) (exe : RunningJobExe) :
    ScaleScheduler :=
  let stL := { st with exec_lost_log := st.exec_lost_log ++ [exe.id] }
  match exe.execution_lost started with
  | Except.ok exe2 =>
      let stU := { stL with running_job_exes := aupdate stL.running_job_exes exe.id exe2 }
      if exe2.is_finished then
        { stU with running_job_exes := aerase stU.running_job_exes exe.id,
                   cleanup_exes := stU.cleanup_exes ++ [exe2] }
      else stU
  | Except.error _ =>
      let stR :=
        match exe.current_task with
        | some tid => { stL with recon_task_ids := addTaskIds stL.recon_task_ids [tid] }
        | none => stL
      if exe.is_finished then
        { stR with running_job_exes := aerase stR.running_job_exes exe.id,
                   cleanup_exes := stR.cleanup_exes ++ [exe] }
      else stR

/-- scale_scheduler.py lines 326-368: slaveLost. Looks the node up first, then
removes it from the node registry and the offer manager; when the node was
known, every running execution the registry reports on that node is processed
by the loop above, in registry order. -/
def ScaleScheduler.slaveLost (st : ScaleScheduler) (agent_id : String) (started : Nat) :
    ScaleScheduler :=
  let node := alookup st.nodes agent_id
  let st1 := { st with nodes := aerase st.nodes agent_id,
                       rm := st.rm.lost_agent agent_id }
  match node with
  | none => st1
  | some nd =>
      (get_job_exes_on_node st1.running_job_exes nd.id).foldl
        (fun s exe => processLostJobExe s started exe) st1

/-- scale_scheduler.py lines 418-441: _reconcile_running_jobs. For every job
execution the database reports as running, collects the current task id when
the registry knows it, records a scheduler-lost durable failure when it does
not, and finally adds the collected ids to the reconciliation set. -/
def reconcile_running_jobs (st : ScaleScheduler) (db_ids : List Nat) : ScaleScheduler :=
  let pair := db_ids.foldl
    (fun (p : List String × ScaleScheduler) jid =>
      match alookup st.running_job_exes jid with
      | some exe =>
          match exe.current_task with
          | some tid => (p.1 ++ [tid], p.2)
          | none => p
      | none =>
          (p.1, { p.2 with job_failures :=
            p.2.job_failures ++ [(jid, ([] : List String), "scheduler-lost")] }))
    ([], st)
  { pair.2 with recon_task_ids := addTaskIds pair.2.recon_task_ids pair.1 }

/-- The cluster-manager callbacks of scale_scheduler.py as a closed event
alphabet (spec sections 4.5 and 6), plus the (re)registration reconciliation
pass. frameworkMessage, executorLost and error only log. -/
inductive SchedulerEvent where
  | resourceOffers (offers : List ResourceOffer)
  | offerRescinded (offer_id : String)
  | statusUpdate (status : TaskStatus)
  | frameworkMessage (agent_id : String) (message : String)
  | slaveLost (agent_id : String) (started : Nat)
  | executorLost (agent_id : String)
  | errorMsg (message : String)
  | reconcileRunningJobs (db_running_exe_ids : List Nat)
deriving DecidableEq, Repr

/-- One scheduler callback dispatched to the embedded handlers
(scale_scheduler.py lines 155-202, 204-225, 227-298, 300-324, 326-368,
370-393, 395-404, 418-441). -/
def schedulerStep (st : ScaleScheduler) (e : SchedulerEvent) : ScaleScheduler :=
  match e with
  | SchedulerEvent.resourceOffers offers =>
      let st1 := { st with nodes := register_agent_ids st.nodes (offers.map ResourceOffer.agent_id) }
      { st1 with rm := st1.rm.add_new_offers offers }
  | SchedulerEvent.offerRescinded oid => { st with rm := st.rm.remove_offers [oid] }
  | SchedulerEvent.statusUpdate s => st.statusUpdate s
  | SchedulerEvent.frameworkMessage _ _ => st
  | SchedulerEvent.slaveLost aid started => st.slaveLost aid started
  | SchedulerEvent.executorLost _ => st
  | SchedulerEvent.errorMsg _ => st
  | SchedulerEvent.reconcileRunningJobs ids => reconcile_running_jobs st ids

/-- The pending offers swapped out at the start of refresh_agent_resources
(manager.py lines 92-94), in buffer order. -/
def refreshOfferVals (st : ResourceManager) : List ResourceOffer :=
  st.new_offers.map Prod.snd

/-- The agent map after refresh_agent_resources has created entries for agents
seen for the first time via an offer (manager.py lines 111-114). -/
def refreshAgents1 (st : ResourceManager) : List (String × AgentResources) :=
  (refreshOfferVals st).foldl
    (fun m o =>
      if acontains m o.agent_id then m else m ++ [(o.agent_id, AgentResources.init o.agent_id)])
    st.agent_resources

/-- The per-entry refresh applied to every agent in the refresh loop
(manager.py lines 116-120). -/
def refreshEntry (st : ResourceManager) (tasks : List SchedTask)
    (p : String × AgentResources) : String × AgentResources :=
  (p.1, p.2.refresh_resources (offersForAgent (refreshOfferVals st) p.2.agent_id)
          (tasksForAgent tasks p.2.agent_id))

/-- Whether every AgentResources entry in the manager is stored under its own
agent id; every ResourceManager operation preserves this (entries are only
created at key offer.agent_id with that same agent id inside). -/
def wellKeyed (st : ResourceManager) : Bool :=
  st.agent_resources.all (fun p => if p.2.agent_id = p.1 then true else false)

/-- The watermark-reset treatment a refreshed agent entry receives at the end
of refresh_agent_resources (manager.py lines 122-126): reset when the period
has elapsed, unchanged otherwise (and unchanged when the None reset timestamp
makes line 123 raise before resetting). -/
def postWatermark (st : ResourceManager) (when : Nat) (ar : AgentResources) :
    AgentResources :=
  match st.last_watermark_reset with
  | none => ar
  | some last => if when > last + WATERMARK_RESET_PERIOD then ar.reset_watermark else ar

/-- A scheduler state with nothing registered, used by the concrete witness
scenarios below. -/
def sched0 : ScaleScheduler :=
  ⟨[], [], [], [], [], [], [], [], ResourceManager.init⟩

/-- Witness scenario: status update for a task the registry does not know. -/
def statusW3 : TaskStatus := ⟨"7_job", MesosTaskState.TASK_RUNNING, none, 0⟩

/-- Witness scenario: an execution whose transitions raise. -/
def exeRaiseW : RunningJobExe := ⟨7, 1, JobExeState.running, some "7_job", none, false, true⟩

def schedW4 : ScaleScheduler := { sched0 with running_job_exes := [(7, exeRaiseW)] }

/-- Witness scenario: a well-behaved running execution for the FINISHED claim. -/
def exeW7 : RunningJobExe := ⟨7, 1, JobExeState.running, some "7_job", none, false, false⟩

def schedW7 : ScaleScheduler := { sched0 with running_job_exes := [(7, exeW7)] }

def statusFinNone : TaskStatus := ⟨"7_job", MesosTaskState.TASK_FINISHED, none, 5⟩

def statusFinSome : TaskStatus := ⟨"7_job", MesosTaskState.TASK_FINISHED, some 3, 5⟩

/-- Witness scenario for slaveLost (spec section 8): two running executions on
agent a1, the first failing its durable-storage write, the second succeeding. -/
def exeLostFails : RunningJobExe := ⟨21, 1, JobExeState.running, some "21_job", none, true, false⟩

def exeLostOk : RunningJobExe := ⟨22, 1, JobExeState.running, some "22_job", none, false, false⟩

def schedW2 : ScaleScheduler :=
  { sched0 with nodes := [("a1", ⟨1, "host1"⟩)],
                running_job_exes := [(21, exeLostFails), (22, exeLostOk)] }

/-- Witness scenario for the reconciliation-removal claim. -/
def schedW5 : ScaleScheduler := { sched0 with recon_task_ids := ["9_t"] }

def statusW5 : TaskStatus := ⟨"9_t", MesosTaskState.TASK_RUNNING, none, 0⟩

/-- Witness scenario for the refresh accounting claims: one pending offer and
one task for agent b1, with the watermark reset timestamp initialized. -/
def offerW8 : ResourceOffer := ⟨"o2", "b1", ⟨2, 4, 8⟩⟩

def taskW8 : SchedTask := ⟨"31_job", "b1", ⟨1, 2, 3⟩⟩

def rmW8 : ResourceManager :=
  ResourceManager.add_new_offers ⟨[], some 0, []⟩ [offerW8]

/-- The agent entry refresh_agent_resources produces for b1 in the scenario
above. -/
def arW8 : AgentResources :=
  ⟨"b1", [("o2", offerW8)], ⟨1, 2, 3⟩, NodeResources.zero, ⟨3, 6, 11⟩, none⟩

/-- Witness scenario for the refresh agent-creation claim: one known agent a1
and one pending offer from a new agent b7. -/
def rmW9 : ResourceManager :=
  ⟨[("a1", AgentResources.init "a1")], some 0, [("o3", ⟨"o3", "b7", ⟨1, 1, 1⟩⟩)]⟩

/-- Witness scenario for the unknown-id no-op claim. -/
def offerW10 : ResourceOffer := ⟨"o5", "a1", ⟨1, 0, 0⟩⟩

def agentW10 : AgentResources :=
  ⟨"a1", [("o5", offerW10)], NodeResources.zero, NodeResources.zero, NodeResources.zero, none⟩

def rmW10 : ResourceManager := ⟨[("a1", agentW10)], some 0, [("o5", offerW10)]⟩

/-- The offer of the spec section 8 scenario for claim C1. -/
def c1Offer : ResourceOffer := ⟨"o1", "a1", ⟨4, 1024, 0⟩⟩

/-- C1: the claim says every call to refresh_agent_resources, including the
very first after construction, completes without error and the section 8
scenario (add offer o1, then refreshAgentResources([])) succeeds. On the code,
last_watermark_reset is None after construction and is never assigned before
line 123 adds WATERMARK_RESET_PERIOD to it, so the first call (and every
later call) raises TypeError. The agents are still refreshed before the raise:
agent a1 ends with offered = {cpu 4, mem 1024, disk 0} and running = zero as
the scenario expects, but the call does not complete without error, and a
second call raises again. -/
theorem C1_first_refresh_raises :
    (ResourceManager.refresh_agent_resources
        (ResourceManager.add_new_offers ResourceManager.init [c1Offer]) [] 0).2
        = some "TypeError: unsupported operand type for +: NoneType and timedelta" ∧
    (alookup (ResourceManager.refresh_agent_resources
        (ResourceManager.add_new_offers ResourceManager.init [c1Offer]) [] 0).1.agent_resources
        "a1").map (fun ar => (ar.offered, ar.running))
        = some (⟨4, 1024, 0⟩, NodeResources.zero) ∧
    (ResourceManager.refresh_agent_resources
        (ResourceManager.refresh_agent_resources
          (ResourceManager.add_new_offers ResourceManager.init [c1Offer]) [] 0).1
        [] 1000).2.isSome = true := by
  refine ⟨rfl, ?_, rfl⟩
  decide

/-! Helper lemmas about the embedded containers. -/

theorem mem_addTaskIds_iff (r : List String) (ts : List String) (a : String) :
    a ∈ addTaskIds r ts ↔ a ∈ r ∨ a ∈ ts := by
  induction ts generalizing r with
  | nil => simp [addTaskIds]
  | cons t ts ih =>
      show a ∈ addTaskIds (if t ∈ r then r else r ++ [t]) ts ↔ _
      rw [ih]
      by_cases h : t ∈ r
      · simp only [if_pos h, List.mem_cons]
        constructor
        · rintro (h1 | h1)
          · exact Or.inl h1
          · exact Or.inr (Or.inr h1)
        · rintro (h1 | h1 | h1)
          · exact Or.inl h1
          · exact Or.inl (h1 ▸ h)
          · exact Or.inr h1
      · simp only [if_neg h, List.mem_append, List.mem_singleton, List.mem_cons]
        tauto

theorem mem_removeTaskId_iff (r : List String) (t a : String) :
    a ∈ removeTaskId r t ↔ a ∈ r ∧ a ≠ t := by
  simp only [removeTaskId, List.mem_filter]
  constructor
  · rintro ⟨h1, h2⟩
    refine ⟨h1, ?_⟩
    intro hq
    rw [hq] at h2
    simp at h2
  · rintro ⟨h1, h2⟩
    refine ⟨h1, ?_⟩
    simp [h2]

theorem alookup_isSome_of_mem {κ α : Type} [DecidableEq κ] {m : List (κ × α)}
    {p : κ × α} (h : p ∈ m) : (alookup m p.1).isSome = true := by
  induction m with
  | nil => cases h
  | cons q rest ih =>
      rcases List.mem_cons.mp h with h | h
      · simp [alookup, h]
      · by_cases hq : q.1 = p.1
        · simp [alookup, hq]
        · simpa [alookup, hq] using ih h

theorem alookup_map_value {κ α β : Type} [DecidableEq κ] (m : List (κ × α))
    (f : α → β) (k : κ) :
    alookup (m.map (fun p => (p.1, f p.2))) k = (alookup m k).map f := by
  induction m with
  | nil => simp [alookup]
  | cons q rest ih =>
      by_cases hq : q.1 = k
      · simp [alookup, hq]
      · simpa [alookup, hq] using ih

theorem alookup_append_some {κ α : Type} [DecidableEq κ] {m : List (κ × α)}
    (l : List (κ × α)) {k : κ} {v : α} (h : alookup m k = some v) :
    alookup (m ++ l) k = some v := by
  induction m with
  | nil => simp [alookup] at h
  | cons q rest ih =>
      by_cases hq : q.1 = k
      · simp [alookup, hq] at h ⊢
        exact h
      · simp [alookup, hq] at h ⊢
        exact ih h

theorem alookup_aerase_self {κ α : Type} [DecidableEq κ] (m : List (κ × α)) (k : κ) :
    alookup (aerase m k) k = none := by
  induction m with
  | nil => simp [aerase, alookup]
  | cons q rest ih =>
      by_cases hq : q.1 = k
      · simpa [aerase, hq] using ih
      · simpa [aerase, alookup, hq] using ih

theorem alookup_aupdate_of_none {κ α : Type} [DecidableEq κ] {m : List (κ × α)}
    {k : κ} (k2 : κ) (v : α) (h : alookup m k = none) :
    alookup (aupdate m k2 v) k = none := by
  induction m with
  | nil => simp [aupdate, alookup]
  | cons q rest ih =>
      by_cases hq : q.1 = k
      · simp [alookup, hq] at h
      · simp [alookup, hq] at h
        by_cases h2 : q.1 = k2
        · have hk : ¬(k2 = k) := by
            intro hx
            exact hq (h2.trans hx)
          simpa [aupdate, alookup, h2, hk] using ih h
        · simpa [aupdate, alookup, h2, hq] using ih h

theorem alookup_aerase_of_none {κ α : Type} [DecidableEq κ] {m : List (κ × α)}
    {k : κ} (k2 : κ) (h : alookup m k = none) :
    alookup (aerase m k2) k = none := by
  induction m with
  | nil => simp [aerase, alookup]
  | cons q rest ih =>
      by_cases hq : q.1 = k
      · simp [alookup, hq] at h
      · simp [alookup, hq] at h
        by_cases h2 : q.1 = k2
        · simpa [aerase, h2] using ih h
        · simpa [aerase, alookup, h2, hq] using ih h

/-- C3: a statusUpdate whose non-cleanup task id resolves to no execution in
the running-execution registry records exactly one durable job failure, with
the built-in scheduler-lost error and an empty error-context list
(scale_scheduler.py lines 284-287). -/
theorem C3_unknown_task_scheduler_lost (st : ScaleScheduler) (s : TaskStatus)
    (hc : task_id_starts_with s.task_id cleanup_task_id_start = false)
    (hL : alookup st.running_job_exes (get_job_exe_id s.task_id) = none) :
    (st.statusUpdate s).job_failures
      = st.job_failures ++ [(get_job_exe_id s.task_id, ([] : List String), "scheduler-lost")] := by
  unfold ScaleScheduler.statusUpdate
  simp only [hc, Bool.false_eq_true, if_false]
  have hL2 : alookup (statusUpdateLogged st s).running_job_exes (get_job_exe_id s.task_id)
      = none := hL
  unfold statusUpdateTryBody
  rw [hL2]
  rfl

/-- Witness for C3: in a scheduler with an empty registry, the update for task
7_job records the scheduler-lost failure for execution 7. -/
theorem C3_unknown_task_scheduler_lost_witness :
    (sched0.statusUpdate statusW3).job_failures
      = sched0.job_failures ++ [(get_job_exe_id statusW3.task_id, ([] : List String), "scheduler-lost")] :=
  C3_unknown_task_scheduler_lost sched0 statusW3 (by decide) (by decide)

/-- C4: on the non-cleanup path, an exception inside the try block of
statusUpdate (execution resolution or transition application) is caught: the
callback returns the pre-try state with the task id re-added to the
reconciliation set, so the id is in the set afterwards
(scale_scheduler.py lines 261-291). -/
theorem C4_status_update_exception_caught (st : ScaleScheduler) (s : TaskStatus)
    (hc : task_id_starts_with s.task_id cleanup_task_id_start = false)
    (he : statusUpdateTryBody (statusUpdateLogged st s) s (get_job_exe_id s.task_id)
        = Except.error ()) :
    st.statusUpdate s
      = { statusUpdateLogged st s with
          recon_task_ids := addTaskIds (statusUpdateLogged st s).recon_task_ids [s.task_id] } ∧
    s.task_id ∈ (st.statusUpdate s).recon_task_ids := by
  have heq : st.statusUpdate s
      = { statusUpdateLogged st s with
          recon_task_ids := addTaskIds (statusUpdateLogged st s).recon_task_ids [s.task_id] } := by
    unfold ScaleScheduler.statusUpdate
    simp only [hc, Bool.false_eq_true, if_false, he]
  refine ⟨heq, ?_⟩
  rw [heq]
  exact (mem_addTaskIds_iff _ _ _).mpr (Or.inr (List.mem_singleton_self _))

/-- Witness for C4: a RUNNING update on an execution whose transition raises is
caught and the task id lands in the reconciliation set. -/
theorem C4_status_update_exception_caught_witness :
    schedW4.statusUpdate statusW3
      = { statusUpdateLogged schedW4 statusW3 with
          recon_task_ids := addTaskIds (statusUpdateLogged schedW4 statusW3).recon_task_ids [statusW3.task_id] } ∧
    statusW3.task_id ∈ (schedW4.statusUpdate statusW3).recon_task_ids :=
  C4_status_update_exception_caught schedW4 statusW3 (by decide) (by rfl)

/-- C7: a FINISHED statusUpdate for a known running execution passes results to
task_complete whose exit code is 0 when the status carried none and the
status's own exit code otherwise; the completed execution is forwarded to
cleanup carrying those results (scale_scheduler.py lines 271-274, 280-283). -/
theorem C7_finished_exit_code_default (st : ScaleScheduler) (s : TaskStatus)
    (exe : RunningJobExe)
    (hc : task_id_starts_with s.task_id cleanup_task_id_start = false)
    (hs : s.state = MesosTaskState.TASK_FINISHED)
    (hL : alookup st.running_job_exes (get_job_exe_id s.task_id) = some exe)
    (hr : exe.transitions_raise = false) :
    (st.statusUpdate s).cleanup_exes
      = st.cleanup_exes ++ [{ exe with
          state := JobExeState.finished,
          completed := some ⟨s.task_id, (if s.exit_code = none then some 0 else s.exit_code), s.timestamp⟩ }] := by
  unfold ScaleScheduler.statusUpdate
  simp only [hc, Bool.false_eq_true, if_false]
  have hL2 : alookup (statusUpdateLogged st s).running_job_exes (get_job_exe_id s.task_id)
      = some exe := hL
  unfold statusUpdateTryBody
  rw [hL2, hs]
  simp only [RunningJobExe.task_complete, hr, Bool.false_eq_true, if_false]
  by_cases he : s.exit_code = none
  · simp [he, applyExeUpdate, RunningJobExe.is_finished, statusUpdateLogged]
  · simp [he, applyExeUpdate, RunningJobExe.is_finished, statusUpdateLogged]

/-- Witness for C7: both the missing-exit-code case (defaults to 0) and the
present-exit-code case (passed through as 3). -/
theorem C7_finished_exit_code_default_witness :
    ((schedW7.statusUpdate statusFinNone).cleanup_exes
      = schedW7.cleanup_exes ++ [{ exeW7 with
          state := JobExeState.finished,
          completed := some ⟨statusFinNone.task_id, (if statusFinNone.exit_code = none then some 0 else statusFinNone.exit_code), statusFinNone.timestamp⟩ }]) ∧
    ((schedW7.statusUpdate statusFinSome).cleanup_exes
      = schedW7.cleanup_exes ++ [{ exeW7 with
          state := JobExeState.finished,
          completed := some ⟨statusFinSome.task_id, (if statusFinSome.exit_code = none then some 0 else statusFinSome.exit_code), statusFinSome.timestamp⟩ }]) :=
  ⟨C7_finished_exit_code_default schedW7 statusFinNone exeW7 (by decide) rfl (by decide) rfl,
   C7_finished_exit_code_default schedW7 statusFinSome exeW7 (by decide) rfl (by decide) rfl⟩

theorem list_map_eq_self {α : Type} {l : List α} {f : α → α} (h : ∀ a ∈ l, f a = a) :
    l.map f = l :=
  (List.map_congr_left (by intro a ha; exact h a ha)).trans (List.map_id l)

/-- The status fold of generate_status_json skips every node entry whose agent
id has no AgentResources entry, so such entries can be filtered out without
changing the totals. -/
theorem statusFold_skip (st : ResourceManager) (aid : String)
    (h : alookup st.agent_resources aid = none) (nodes : List String)
    (acc : NodeResources × NodeResources × NodeResources) :
    nodes.foldl
      (fun t a =>
        match alookup st.agent_resources a with
        | some ar => ar.generate_status_json t.1 t.2.1 t.2.2
        | none => t) acc
    = (nodes.filter (fun n => if n = aid then false else true)).foldl
        (fun t a =>
          match alookup st.agent_resources a with
          | some ar => ar.generate_status_json t.1 t.2.1 t.2.2
          | none => t) acc := by
  induction nodes generalizing acc with
  | nil => rfl
  | cons n rest ih =>
      by_cases hn : n = aid
      · subst hn
        simp only [List.foldl_cons, List.filter_cons, if_pos rfl, h]
        exact ih _
      · simp only [List.foldl_cons, List.filter_cons, if_neg hn]
        exact ih _

/-- C6: after lost_agent, no pending offer from that agent remains in the
buffer, the agent's AgentResources entry is gone, and generate_status_json
gets zero contribution from that agent: dropping the lost agent's node entry
from the report input leaves all cluster totals unchanged
(manager.py lines 40-64 and 66-82). -/
theorem C6_lost_agent_zero_contribution (st : ResourceManager) (aid : String)
    (nodes : List String) :
    ((st.lost_agent aid).new_offers.all
        (fun p => if p.2.agent_id = aid then false else true)) = true ∧
    alookup (st.lost_agent aid).agent_resources aid = none ∧
    (st.lost_agent aid).generate_status_json nodes
      = (st.lost_agent aid).generate_status_json
          (nodes.filter (fun n => if n = aid then false else true)) := by
  refine ⟨?_, ?_, ?_⟩
  · simp only [ResourceManager.lost_agent, List.all_eq_true]
    intro p hp
    exact (List.mem_filter.mp hp).2
  · exact alookup_aerase_self st.agent_resources aid
  · exact statusFold_skip (st.lost_agent aid) aid (alookup_aerase_self st.agent_resources aid)
      nodes (NodeResources.zero, NodeResources.zero, NodeResources.zero)

/-- C10: ResourceManager operations on ids it has never seen are total no-ops:
remove_offers with ids absent from the pending buffer (and from every agent's
absorbed offer set) returns the state unchanged, and lost_agent for an agent
with no AgentResources entry and no pending offers returns the state unchanged;
neither raises (manager.py lines 66-82 and 128-142). -/
theorem C10_unknown_ids_noop (st : ResourceManager) (ids : List String) (aid : String)
    (h1 : ∀ i ∈ ids, alookup st.new_offers i = none)
    (h2 : ∀ p ∈ st.agent_resources, ∀ i ∈ ids, alookup p.2.offers i = none)
    (h3 : alookup st.agent_resources aid = none)
    (h4 : ∀ p ∈ st.new_offers, p.2.agent_id ≠ aid) :
    st.remove_offers ids = st ∧ st.lost_agent aid = st := by
  constructor
  · have e1 : st.new_offers.filter (fun p => if p.1 ∈ ids then false else true)
        = st.new_offers := by
      apply List.filter_eq_self.mpr
      intro p hp
      by_cases hi : p.1 ∈ ids
      · have hs := alookup_isSome_of_mem hp
        rw [h1 p.1 hi] at hs
        simp at hs
      · simp [hi]
    have e2 : st.agent_resources.map (fun p => (p.1, p.2.remove_offers ids))
        = st.agent_resources := by
      apply list_map_eq_self
      intro p hp
      have eo : p.2.offers.filter (fun q => if q.1 ∈ ids then false else true)
          = p.2.offers := by
        apply List.filter_eq_self.mpr
        intro q hq
        by_cases hi : q.1 ∈ ids
        · have hs := alookup_isSome_of_mem hq
          rw [h2 p hp q.1 hi] at hs
          simp at hs
        · simp [hi]
      have hr : p.2.remove_offers ids = p.2 := by
        unfold AgentResources.remove_offers
        rw [eo]
      rw [hr]
    unfold ResourceManager.remove_offers
    rw [e1, e2]
  · have e1 : st.new_offers.filter (fun p => if p.2.agent_id = aid then false else true)
        = st.new_offers := by
      apply List.filter_eq_self.mpr
      intro p hp
      simp [h4 p hp]
    have e2 : aerase st.agent_resources aid = st.agent_resources := by
      apply List.filter_eq_self.mpr
      intro p hp
      have hne : p.1 ≠ aid := by
        intro hq
        have hs := alookup_isSome_of_mem hp
        rw [hq, h3] at hs
        simp at hs
      simp [hne]
    unfold ResourceManager.lost_agent
    rw [e1, e2]

/-- Witness for C10: a manager knowing agent a1 and offer o5; removing offer
id zz and losing agent nope both leave the state untouched. -/
theorem C10_unknown_ids_noop_witness :
    rmW10.remove_offers ["zz"] = rmW10 ∧ rmW10.lost_agent "nope" = rmW10 :=
  C10_unknown_ids_noop rmW10 ["zz"] "nope" (by decide) (by decide) (by decide) (by decide)

/-- refresh_agent_resources with a None reset timestamp: the refreshed agent
list is refreshAgents1 mapped through refreshEntry, the buffer is emptied, and
the TypeError of line 123 is raised. -/
theorem refresh_spec_none (st : ResourceManager) (tasks : List SchedTask) (when : Nat)
    (hL : st.last_watermark_reset = none) :
    st.refresh_agent_resources tasks when
      = (⟨(refreshAgents1 st).map (refreshEntry st tasks), none, []⟩,
         some "TypeError: unsupported operand type for +: NoneType and timedelta") := by
  simp only [ResourceManager.refresh_agent_resources, hL]
  rfl

/-- refresh_agent_resources when the reset period has elapsed: every refreshed
entry additionally gets its watermark reset, the reset timestamp is recorded,
the buffer is emptied, and nothing is raised. -/
theorem refresh_spec_reset (st : ResourceManager) (tasks : List SchedTask) (when : Nat)
    (last : Nat) (hL : st.last_watermark_reset = some last)
    (hw : when > last + WATERMARK_RESET_PERIOD) :
    st.refresh_agent_resources tasks when
      = (⟨((refreshAgents1 st).map (refreshEntry st tasks)).map
            (fun p => (p.1, p.2.reset_watermark)), some when, []⟩, none) := by
  simp only [ResourceManager.refresh_agent_resources, hL, if_pos hw]
  rfl

/-- refresh_agent_resources when the reset period has not elapsed: the
refreshed agent list with no watermark reset, buffer emptied, nothing
raised. -/
theorem refresh_spec_noreset (st : ResourceManager) (tasks : List SchedTask) (when : Nat)
    (last : Nat) (hL : st.last_watermark_reset = some last)
    (hw : ¬ when > last + WATERMARK_RESET_PERIOD) :
    st.refresh_agent_resources tasks when
      = (⟨(refreshAgents1 st).map (refreshEntry st tasks), some last, []⟩, none) := by
  simp only [ResourceManager.refresh_agent_resources, hL, if_neg hw]
  rfl

theorem refresh_resources_offered (a : AgentResources) (offers : List ResourceOffer)
    (tasks : List SchedTask) :
    (a.refresh_resources offers tasks).offered = sumOfferResources offers := by
  unfold AgentResources.refresh_resources AgentResources.offered
  simp only [List.map_map]
  exact congrArg sumOfferResources (list_map_eq_self (fun o _ => rfl))

/-- Any entry of the refreshed agent list satisfies the per-cycle accounting
equation: running plus offered equals the cycle's task total plus the cycle's
offer total for that agent. -/
theorem refreshEntry_mem_sum (st : ResourceManager) (tasks : List SchedTask)
    {k : String} {ar : AgentResources}
    (h : (k, ar) ∈ (refreshAgents1 st).map (refreshEntry st tasks)) :
    NodeResources.add ar.running ar.offered
      = NodeResources.add (sumTaskResources (tasksForAgent tasks ar.agent_id))
          (sumOfferResources (offersForAgent (st.new_offers.map Prod.snd) ar.agent_id)) := by
  rcases List.mem_map.mp h with ⟨p, hp, he⟩
  injection he with hk hv
  subst hv
  show NodeResources.add (p.2.refresh_resources _ _).running
      (p.2.refresh_resources _ _).offered = _
  rw [refresh_resources_offered]
  rfl

theorem reset_map_mem {l : List (String × AgentResources)} {k : String}
    {ar : AgentResources}
    (h : (k, ar) ∈ l.map (fun p => (p.1, p.2.reset_watermark))) :
    ∃ ar0 : AgentResources, (k, ar0) ∈ l ∧ ar.running = ar0.running ∧
      ar.offered = ar0.offered ∧ ar.agent_id = ar0.agent_id := by
  rcases List.mem_map.mp h with ⟨p, hp, he⟩
  injection he with hk hv
  subst hk
  subst hv
  exact ⟨p.2, hp, rfl, rfl, rfl⟩

/-- C8: each pending offer is handed to at most one refresh cycle (the buffer
is swapped out and left empty), and after refresh_agent_resources every
agent entry's running plus offered equals exactly the resources of the tasks
and swapped-in offers supplied to that cycle for that agent, so there is no
double counting across repeated refreshes (manager.py lines 29-38, 84-126). -/
theorem C8_no_double_count (st : ResourceManager) (tasks : List SchedTask) (when : Nat)
    (k : String) (ar : AgentResources)
    (h : (k, ar) ∈ (st.refresh_agent_resources tasks when).1.agent_resources) :
    NodeResources.add ar.running ar.offered
      = NodeResources.add (sumTaskResources (tasksForAgent tasks ar.agent_id))
          (sumOfferResources (offersForAgent (st.new_offers.map Prod.snd) ar.agent_id)) ∧
    (st.refresh_agent_resources tasks when).1.new_offers = [] := by
  rcases hL : st.last_watermark_reset with _ | last
  · have hspec := refresh_spec_none st tasks when hL
    rw [hspec] at h ⊢
    exact ⟨refreshEntry_mem_sum st tasks h, rfl⟩
  · by_cases hw : when > last + WATERMARK_RESET_PERIOD
    · have hspec := refresh_spec_reset st tasks when last hL hw
      rw [hspec] at h ⊢
      rcases reset_map_mem h with ⟨ar0, h0, hr, ho, ha⟩
      rw [hr, ho, ha]
      exact ⟨refreshEntry_mem_sum st tasks h0, rfl⟩
    · have hspec := refresh_spec_noreset st tasks when last hL hw
      rw [hspec] at h ⊢
      exact ⟨refreshEntry_mem_sum st tasks h, rfl⟩

/-- Witness for C8: agent b1 with one offer {2,4,8} and one task {1,2,3} in
the cycle: running + offered = {3,6,11} and the buffer is emptied. -/
theorem C8_no_double_count_witness :
    NodeResources.add arW8.running arW8.offered
      = NodeResources.add (sumTaskResources (tasksForAgent [taskW8] arW8.agent_id))
          (sumOfferResources (offersForAgent (rmW8.new_offers.map Prod.snd) arW8.agent_id)) ∧
    (rmW8.refresh_agent_resources [taskW8] 0).1.new_offers = [] :=
  C8_no_double_count rmW8 [taskW8] 0 "b1" arW8 (by decide)

theorem acontains_append_single {κ α : Type} [DecidableEq κ] (m : List (κ × α))
    (k2 : κ) (v : α) (k : κ) :
    acontains (m ++ [(k2, v)]) k = (acontains m k || (if k2 = k then true else false)) := by
  induction m with
  | nil =>
      by_cases h : k2 = k <;> simp [acontains, alookup, h]
  | cons q rest ih =>
      by_cases hq : q.1 = k <;> simp [acontains, alookup, hq] <;>
        simpa [acontains] using ih

theorem acontains_foldl_create (offs : List ResourceOffer)
    (m : List (String × AgentResources)) (aid : String) :
    acontains
      (offs.foldl
        (fun m o =>
          if acontains m o.agent_id then m
          else m ++ [(o.agent_id, AgentResources.init o.agent_id)]) m) aid
      = (acontains m aid || offs.any (fun o => if o.agent_id = aid then true else false)) := by
  induction offs generalizing m with
  | nil => simp
  | cons o rest ih =>
      simp only [List.foldl_cons, List.any_cons]
      rw [ih]
      by_cases hoa : o.agent_id = aid
      · subst hoa
        by_cases hc : acontains m o.agent_id
        · simp [hc]
        · simp only [hc, if_false, Bool.false_eq_true]
          rw [acontains_append_single]
          simp [hc]
      · by_cases hc : acontains m o.agent_id
        · simp [hc, hoa]
        · simp only [hc, if_false, Bool.false_eq_true]
          rw [acontains_append_single]
          simp [hoa]

theorem alookup_foldl_create_of_some (offs : List ResourceOffer)
    {m : List (String × AgentResources)} {aid : String} {ar : AgentResources}
    (h : alookup m aid = some ar) :
    alookup
      (offs.foldl
        (fun m o =>
          if acontains m o.agent_id then m
          else m ++ [(o.agent_id, AgentResources.init o.agent_id)]) m) aid = some ar := by
  induction offs generalizing m with
  | nil => exact h
  | cons o rest ih =>
      simp only [List.foldl_cons]
      by_cases hc : acontains m o.agent_id
      · rw [if_pos hc]
        exact ih h
      · rw [if_neg hc]
        exact ih (alookup_append_some _ h)

theorem alookup_mem {κ α : Type} [DecidableEq κ] {m : List (κ × α)} {k : κ} {v : α}
    (h : alookup m k = some v) : (k, v) ∈ m := by
  induction m with
  | nil => simp [alookup] at h
  | cons q rest ih =>
      obtain ⟨q1, q2⟩ := q
      by_cases hq : q1 = k
      · subst hq
        simp only [alookup, if_pos] at h
        injection h with h2
        subst h2
        exact List.mem_cons_self _ _
      · simp only [alookup, hq, if_false] at h
        exact List.mem_cons_of_mem _ (ih h)

theorem mem_foldl_create (offs : List ResourceOffer)
    {m : List (String × AgentResources)} {p : String × AgentResources}
    (h : p ∈ offs.foldl
      (fun m o =>
        if acontains m o.agent_id then m
        else m ++ [(o.agent_id, AgentResources.init o.agent_id)]) m) :
    p ∈ m ∨ ∃ o ∈ offs, p = (o.agent_id, AgentResources.init o.agent_id) := by
  induction offs generalizing m with
  | nil => exact Or.inl h
  | cons o rest ih =>
      simp only [List.foldl_cons] at h
      rcases ih h with hm | ⟨o2, ho2, he⟩
      · by_cases hc : acontains m o.agent_id
        · rw [if_pos hc] at hm
          exact Or.inl hm
        · rw [if_neg hc] at hm
          rcases List.mem_append.mp hm with hm | hm
          · exact Or.inl hm
          · exact Or.inr ⟨o, List.mem_cons_self o rest, List.mem_singleton.mp hm⟩
      · exact Or.inr ⟨o2, List.mem_cons_of_mem o ho2, he⟩

theorem tasksForAgent_filter (tasks : List SchedTask) (rel : SchedTask → Bool)
    (aid : String) (h : ∀ t : SchedTask, t.agent_id = aid → rel t = true) :
    tasksForAgent (tasks.filter rel) aid = tasksForAgent tasks aid := by
  unfold tasksForAgent
  rw [List.filter_filter]
  apply List.filter_congr
  intro a _
  by_cases ha : a.agent_id = aid
  · simp [ha, h a ha]
  · simp [ha]

theorem alookup_map_refreshEntry (st : ResourceManager) (tasks : List SchedTask)
    (l : List (String × AgentResources)) (k : String) :
    alookup (l.map (refreshEntry st tasks)) k
      = (alookup l k).map
          (fun a => a.refresh_resources (offersForAgent (refreshOfferVals st) a.agent_id)
            (tasksForAgent tasks a.agent_id)) :=
  alookup_map_value l
    (fun a => a.refresh_resources (offersForAgent (refreshOfferVals st) a.agent_id)
      (tasksForAgent tasks a.agent_id)) k

theorem alookup_map_reset (l : List (String × AgentResources)) (k : String) :
    alookup (l.map (fun p => (p.1, p.2.reset_watermark))) k
      = (alookup l k).map (fun a => a.reset_watermark) :=
  alookup_map_value l (fun a => a.reset_watermark) k

theorem acontains_map_refresh (st : ResourceManager) (tasks : List SchedTask)
    (l : List (String × AgentResources)) (k : String) :
    acontains (l.map (refreshEntry st tasks)) k = acontains l k := by
  unfold acontains
  rw [alookup_map_refreshEntry]
  cases alookup l k <;> rfl

theorem acontains_map_reset (l : List (String × AgentResources)) (k : String) :
    acontains (l.map (fun p => (p.1, p.2.reset_watermark))) k = acontains l k := by
  unfold acontains
  rw [alookup_map_reset]
  cases alookup l k <;> rfl

/-- C9: refresh_agent_resources creates a new AgentResources entry exactly for
agent ids appearing in the swapped-in pending offers (never for ids appearing
only in tasks); tasks whose agent has no entry and no pending offer this cycle
can be dropped without changing anything; and every already-known agent's
entry is the result of exactly one refresh_resources application on its
grouped (possibly empty) offer and task lists, followed by the cycle's
watermark treatment (manager.py lines 96-126). -/
theorem C9_creation_and_task_scope (st : ResourceManager) (tasks : List SchedTask)
    (when : Nat) (hk : wellKeyed st = true) :
    (∀ aid : String,
      acontains (st.refresh_agent_resources tasks when).1.agent_resources aid
        = (acontains st.agent_resources aid
            || (refreshOfferVals st).any (fun o => if o.agent_id = aid then true else false))) ∧
    (st.refresh_agent_resources tasks when
      = st.refresh_agent_resources
          (tasks.filter (fun t => acontains st.agent_resources t.agent_id
            || (refreshOfferVals st).any (fun o => if o.agent_id = t.agent_id then true else false)))
          when) ∧
    (∀ (aid : String) (ar : AgentResources), alookup st.agent_resources aid = some ar →
      alookup (st.refresh_agent_resources tasks when).1.agent_resources aid
        = some (postWatermark st when
            (ar.refresh_resources (offersForAgent (refreshOfferVals st) aid)
              (tasksForAgent tasks aid)))) := by
  have hcontains1 : ∀ aid : String, acontains (refreshAgents1 st) aid
      = (acontains st.agent_resources aid
          || (refreshOfferVals st).any (fun o => if o.agent_id = aid then true else false)) := by
    intro aid
    unfold refreshAgents1
    exact acontains_foldl_create _ _ aid
  refine ⟨?_, ?_, ?_⟩
  · intro aid
    rcases hL : st.last_watermark_reset with _ | last
    · rw [refresh_spec_none st tasks when hL]
      show acontains ((refreshAgents1 st).map (refreshEntry st tasks)) aid = _
      rw [acontains_map_refresh, hcontains1]
    · by_cases hw : when > last + WATERMARK_RESET_PERIOD
      · rw [refresh_spec_reset st tasks when last hL hw]
        show acontains (((refreshAgents1 st).map (refreshEntry st tasks)).map
          (fun p => (p.1, p.2.reset_watermark))) aid = _
        rw [acontains_map_reset, acontains_map_refresh, hcontains1]
      · rw [refresh_spec_noreset st tasks when last hL hw]
        show acontains ((refreshAgents1 st).map (refreshEntry st tasks)) aid = _
        rw [acontains_map_refresh, hcontains1]
  · have hmap : (refreshAgents1 st).map (refreshEntry st tasks)
        = (refreshAgents1 st).map (refreshEntry st
            (tasks.filter (fun t => acontains st.agent_resources t.agent_id
              || (refreshOfferVals st).any
                (fun o => if o.agent_id = t.agent_id then true else false)))) := by
      apply List.map_congr_left
      intro p hp
      have hrel : ∀ t : SchedTask, t.agent_id = p.2.agent_id →
          (acontains st.agent_resources t.agent_id
            || (refreshOfferVals st).any
              (fun o => if o.agent_id = t.agent_id then true else false)) = true := by
        intro t ht
        have hp2 : p ∈ refreshAgents1 st := hp
        unfold refreshAgents1 at hp2
        rcases mem_foldl_create _ hp2 with hm | ⟨o, ho, he⟩
        · have hkey := List.all_eq_true.mp hk _ hm
          have hkeq : p.2.agent_id = p.1 := by
            by_cases hx : p.2.agent_id = p.1
            · exact hx
            · simp [hx] at hkey
          have hc : acontains st.agent_resources t.agent_id = true := by
            rw [ht, hkeq]
            unfold acontains
            exact alookup_isSome_of_mem hm
          rw [hc]
          rfl
        · have hoid : p.2.agent_id = o.agent_id := by
            rw [he]
            rfl
          have hany : (refreshOfferVals st).any
              (fun o2 => if o2.agent_id = t.agent_id then true else false) = true := by
            apply List.any_eq_true.mpr
            refine ⟨o, ho, ?_⟩
            rw [ht, hoid]
            simp
          rw [hany]
          simp
      unfold refreshEntry
      have htasks := tasksForAgent_filter tasks
        (fun t => acontains st.agent_resources t.agent_id
          || (refreshOfferVals st).any (fun o => if o.agent_id = t.agent_id then true else false))
        p.2.agent_id hrel
      rw [htasks]
    rcases hL : st.last_watermark_reset with _ | last
    · rw [refresh_spec_none st tasks when hL, refresh_spec_none st _ when hL, hmap]
    · by_cases hw : when > last + WATERMARK_RESET_PERIOD
      · rw [refresh_spec_reset st tasks when last hL hw,
            refresh_spec_reset st _ when last hL hw, hmap]
      · rw [refresh_spec_noreset st tasks when last hL hw,
            refresh_spec_noreset st _ when last hL hw, hmap]
  · intro aid ar har
    have hmem := alookup_mem har
    have haid : ar.agent_id = aid := by
      have hall := List.all_eq_true.mp hk _ hmem
      by_cases hx : ar.agent_id = aid
      · exact hx
      · simp [hx] at hall
    have h1 : alookup (refreshAgents1 st) aid = some ar := by
      unfold refreshAgents1
      exact alookup_foldl_create_of_some _ har
    rcases hL : st.last_watermark_reset with _ | last
    · rw [refresh_spec_none st tasks when hL]
      show alookup ((refreshAgents1 st).map (refreshEntry st tasks)) aid = _
      rw [alookup_map_refreshEntry, h1]
      simp only [Option.map_some']
      rw [haid]
      simp [postWatermark, hL]
    · by_cases hw : when > last + WATERMARK_RESET_PERIOD
      · rw [refresh_spec_reset st tasks when last hL hw]
        show alookup (((refreshAgents1 st).map (refreshEntry st tasks)).map
          (fun p => (p.1, p.2.reset_watermark))) aid = _
        rw [alookup_map_reset, alookup_map_refreshEntry, h1]
        simp only [Option.map_some']
        rw [haid]
        simp [postWatermark, hL, hw]
      · rw [refresh_spec_noreset st tasks when last hL hw]
        show alookup ((refreshAgents1 st).map (refreshEntry st tasks)) aid = _
        rw [alookup_map_refreshEntry, h1]
        simp only [Option.map_some']
        rw [haid]
        simp [postWatermark, hL, hw]

/-- Witness for C9: a manager knowing agent a1 with a pending offer from new
agent b7; the known agent a1 is refreshed exactly once with empty offer and
task lists. -/
theorem C9_creation_and_task_scope_witness :
    alookup (rmW9.refresh_agent_resources [] 0).1.agent_resources "a1"
      = some (postWatermark rmW9 0
          ((AgentResources.init "a1").refresh_resources (offersForAgent (refreshOfferVals rmW9) "a1")
            (tasksForAgent [] "a1"))) :=
  (C9_creation_and_task_scope rmW9 [] 0 (by decide)).2.2 "a1" (AgentResources.init "a1") (by decide)

theorem processLost_log (st : ScaleScheduler) (started : Nat) (exe : RunningJobExe) :
    (processLostJobExe st started exe).exec_lost_log = st.exec_lost_log ++ [exe.id] := by
  unfold processLostJobExe RunningJobExe.execution_lost
  cases hb : exe.db_write_fails
  · rfl
  · rw [if_pos rfl]
    split
    next exe2 heq => exact absurd heq (by simp)
    next er heq =>
      cases hct : exe.current_task <;> dsimp only <;> split <;> rfl

theorem processLost_recon_mono (st : ScaleScheduler) (started : Nat) (exe : RunningJobExe)
    {a : String} (h : a ∈ st.recon_task_ids) :
    a ∈ (processLostJobExe st started exe).recon_task_ids := by
  unfold processLostJobExe RunningJobExe.execution_lost
  cases hb : exe.db_write_fails
  · exact h
  · rw [if_pos rfl]
    split
    next exe2 heq => exact absurd heq (by simp)
    next er heq =>
      cases hct : exe.current_task
      · dsimp only
        split <;> exact h
      · dsimp only
        split <;> exact (mem_addTaskIds_iff _ _ _).mpr (Or.inl h)

theorem processLost_recon_add (st : ScaleScheduler) (started : Nat) (exe : RunningJobExe)
    (tid : String) (hb : exe.db_write_fails = true) (hct : exe.current_task = some tid) :
    tid ∈ (processLostJobExe st started exe).recon_task_ids := by
  unfold processLostJobExe RunningJobExe.execution_lost
  rw [hb, if_pos rfl]
  split
  next exe2 heq => exact absurd heq (by simp)
  next er heq =>
    rw [hct]
    dsimp only
    split <;> exact (mem_addTaskIds_iff _ _ _).mpr (Or.inr (List.mem_singleton_self _))

theorem processLost_recon_not_mem (st : ScaleScheduler) (started : Nat)
    (exe : RunningJobExe) (tid : String) (h1 : tid ∉ st.recon_task_ids)
    (h2 : exe.db_write_fails = true → exe.current_task ≠ some tid) :
    tid ∉ (processLostJobExe st started exe).recon_task_ids := by
  unfold processLostJobExe RunningJobExe.execution_lost
  cases hb : exe.db_write_fails
  · exact h1
  · rw [if_pos rfl]
    split
    next exe2 heq => exact absurd heq (by simp)
    next er heq =>
      cases hct : exe.current_task with
      | none =>
          dsimp only
          split <;> exact h1
      | some tid2 =>
          have hne : tid2 ≠ tid := by
            intro hq
            exact h2 hb (by rw [hct, hq])
          have hnm : tid ∉ addTaskIds st.recon_task_ids [tid2] := by
            intro hmem
            rcases (mem_addTaskIds_iff _ _ _).mp hmem with h | h
            · exact h1 h
            · exact hne (List.mem_singleton.mp h).symm
          dsimp only
          split <;> exact hnm

theorem processLost_running_none (st : ScaleScheduler) (started : Nat)
    (exe : RunningJobExe) (k : Nat) (h : alookup st.running_job_exes k = none) :
    alookup (processLostJobExe st started exe).running_job_exes k = none := by
  unfold processLostJobExe RunningJobExe.execution_lost
  cases hb : exe.db_write_fails
  · exact alookup_aerase_of_none _ (alookup_aupdate_of_none _ _ h)
  · rw [if_pos rfl]
    split
    next exe2 heq => exact absurd heq (by simp)
    next er heq =>
      cases hct : exe.current_task <;> dsimp only <;> split
      · exact alookup_aerase_of_none _ h
      · exact h
      · exact alookup_aerase_of_none _ h
      · exact h

theorem processLost_cleanup_mono (st : ScaleScheduler) (started : Nat)
    (exe : RunningJobExe) {x : RunningJobExe} (h : x ∈ st.cleanup_exes) :
    x ∈ (processLostJobExe st started exe).cleanup_exes := by
  unfold processLostJobExe RunningJobExe.execution_lost
  cases hb : exe.db_write_fails
  · exact List.mem_append_left _ h
  · rw [if_pos rfl]
    split
    next exe2 heq => exact absurd heq (by simp)
    next er heq =>
      cases hct : exe.current_task <;> dsimp only <;> split
      · exact List.mem_append_left _ h
      · exact h
      · exact List.mem_append_left _ h
      · exact h

theorem processLost_success (st : ScaleScheduler) (started : Nat) (exe : RunningJobExe)
    (hb : exe.db_write_fails = false) :
    alookup (processLostJobExe st started exe).running_job_exes exe.id = none ∧
    ({ exe with state := JobExeState.lost } ∈ (processLostJobExe st started exe).cleanup_exes) := by
  unfold processLostJobExe RunningJobExe.execution_lost
  rw [hb]
  exact ⟨alookup_aerase_self _ _,
    List.mem_append.mpr (Or.inr (List.mem_singleton_self _))⟩

theorem foldLost_log (started : Nat) (l : List RunningJobExe) (st : ScaleScheduler) :
    (l.foldl (fun s exe => processLostJobExe s started exe) st).exec_lost_log
      = st.exec_lost_log ++ l.map RunningJobExe.id := by
  induction l generalizing st with
  | nil => simp
  | cons e rest ih =>
      simp only [List.foldl_cons, List.map_cons]
      rw [ih, processLost_log, List.append_assoc]
      rfl

theorem foldLost_recon_mono (started : Nat) (l : List RunningJobExe)
    (st : ScaleScheduler) {a : String} (h : a ∈ st.recon_task_ids) :
    a ∈ (l.foldl (fun s exe => processLostJobExe s started exe) st).recon_task_ids := by
  induction l generalizing st with
  | nil => exact h
  | cons e rest ih => exact ih _ (processLost_recon_mono st started e h)

theorem foldLost_recon_add (started : Nat) (l : List RunningJobExe)
    (st : ScaleScheduler) {exe : RunningJobExe} (he : exe ∈ l) (tid : String)
    (hb : exe.db_write_fails = true) (hct : exe.current_task = some tid) :
    tid ∈ (l.foldl (fun s exe => processLostJobExe s started exe) st).recon_task_ids := by
  induction l generalizing st with
  | nil => cases he
  | cons e rest ih =>
      rcases List.mem_cons.mp he with he1 | he1
      · subst he1
        exact foldLost_recon_mono started rest _ (processLost_recon_add st started exe tid hb hct)
      · exact ih _ he1

theorem foldLost_recon_not_mem (started : Nat) (l : List RunningJobExe)
    (st : ScaleScheduler) (tid : String) (h1 : tid ∉ st.recon_task_ids)
    (h2 : ∀ exe ∈ l, exe.db_write_fails = true → exe.current_task ≠ some tid) :
    tid ∉ (l.foldl (fun s exe => processLostJobExe s started exe) st).recon_task_ids := by
  induction l generalizing st with
  | nil => exact h1
  | cons e rest ih =>
      exact ih _
        (processLost_recon_not_mem st started e tid h1 (h2 e (List.mem_cons_self e rest)))
        (fun exe hexe => h2 exe (List.mem_cons_of_mem e hexe))

theorem foldLost_running_none (started : Nat) (l : List RunningJobExe)
    (st : ScaleScheduler) (k : Nat) (h : alookup st.running_job_exes k = none) :
    alookup (l.foldl (fun s exe => processLostJobExe s started exe) st).running_job_exes k
      = none := by
  induction l generalizing st with
  | nil => exact h
  | cons e rest ih => exact ih _ (processLost_running_none st started e k h)

theorem foldLost_cleanup_mono (started : Nat) (l : List RunningJobExe)
    (st : ScaleScheduler) {x : RunningJobExe} (h : x ∈ st.cleanup_exes) :
    x ∈ (l.foldl (fun s exe => processLostJobExe s started exe) st).cleanup_exes := by
  induction l generalizing st with
  | nil => exact h
  | cons e rest ih => exact ih _ (processLost_cleanup_mono st started e h)

theorem foldLost_success (started : Nat) (l : List RunningJobExe)
    (st : ScaleScheduler) {exe : RunningJobExe} (he : exe ∈ l)
    (hb : exe.db_write_fails = false) :
    alookup (l.foldl (fun s exe => processLostJobExe s started exe) st).running_job_exes exe.id
      = none ∧
    ({ exe with state := JobExeState.lost }
      ∈ (l.foldl (fun s exe => processLostJobExe s started exe) st).cleanup_exes) := by
  induction l generalizing st with
  | nil => cases he
  | cons e rest ih =>
      rcases List.mem_cons.mp he with he1 | he1
      · subst he1
        have hp := processLost_success st started exe hb
        exact ⟨foldLost_running_none started rest _ _ hp.1,
          foldLost_cleanup_mono started rest _ hp.2⟩
      · exact ih _ he1

/-- C2: when slaveLost finds the node, every running execution the registry
reports on that node gets execution_lost invoked (the invocation log grows by
exactly their ids, in order); a DatabaseError during the durable write adds
that execution's current task id to the reconciliation set, executions whose
write succeeded contribute no new reconciliation ids, and every execution
whose write succeeded (now terminal) is removed from the registry and handed
to cleanup even when a sibling failed (scale_scheduler.py lines 326-368). -/
theorem C2_slave_lost_handling (st : ScaleScheduler) (agent_id : String) (started : Nat)
    (nd : SchedNode) (hn : alookup st.nodes agent_id = some nd) :
    ((st.slaveLost agent_id started).exec_lost_log
      = st.exec_lost_log
        ++ (get_job_exes_on_node st.running_job_exes nd.id).map RunningJobExe.id) ∧
    (∀ exe ∈ get_job_exes_on_node st.running_job_exes nd.id, exe.db_write_fails = true →
      ∀ tid : String, exe.current_task = some tid →
        tid ∈ (st.slaveLost agent_id started).recon_task_ids) ∧
    (∀ tid : String, tid ∉ st.recon_task_ids →
      (∀ exe ∈ get_job_exes_on_node st.running_job_exes nd.id,
        exe.db_write_fails = true → exe.current_task ≠ some tid) →
      tid ∉ (st.slaveLost agent_id started).recon_task_ids) ∧
    (∀ exe ∈ get_job_exes_on_node st.running_job_exes nd.id, exe.db_write_fails = false →
      alookup (st.slaveLost agent_id started).running_job_exes exe.id = none ∧
      ({ exe with state := JobExeState.lost }
        ∈ (st.slaveLost agent_id started).cleanup_exes)) := by
  have hsl : st.slaveLost agent_id started
      = (get_job_exes_on_node st.running_job_exes nd.id).foldl
          (fun s exe => processLostJobExe s started exe)
          { st with nodes := aerase st.nodes agent_id, rm := st.rm.lost_agent agent_id } := by
    unfold ScaleScheduler.slaveLost
    rw [hn]
  refine ⟨?_, ?_, ?_, ?_⟩
  · rw [hsl]
    exact foldLost_log started _ _
  · intro exe he hb tid hct
    rw [hsl]
    exact foldLost_recon_add started _ _ he tid hb hct
  · intro tid h1 h2
    rw [hsl]
    exact foldLost_recon_not_mem started _ _ tid h1 h2
  · intro exe he hb
    rw [hsl]
    exact foldLost_success started _ _ he hb

/-- Witness for C2, the spec section 8 scenario: slaveLost on a1 with two
running executions, one failing its storage write; the failing one's task id
is in the reconciliation set, the successful one's is not, and the successful
one is removed from the registry. -/
theorem C2_slave_lost_handling_witness :
    "21_job" ∈ (schedW2.slaveLost "a1" 0).recon_task_ids ∧
    ("22_job" ∉ (schedW2.slaveLost "a1" 0).recon_task_ids) ∧
    alookup (schedW2.slaveLost "a1" 0).running_job_exes 22 = none :=
  ⟨(C2_slave_lost_handling schedW2 "a1" 0 ⟨1, "host1"⟩ (by decide)).2.1
      exeLostFails (by decide) rfl "21_job" rfl,
   (C2_slave_lost_handling schedW2 "a1" 0 ⟨1, "host1"⟩ (by decide)).2.2.1
      "22_job" (by decide) (by decide),
   ((C2_slave_lost_handling schedW2 "a1" 0 ⟨1, "host1"⟩ (by decide)).2.2.2
      exeLostOk (by decide) rfl).1⟩

theorem applyExeUpdate_recon (st : ScaleScheduler) (jid : Nat) (exe2 : RunningJobExe) :
    (applyExeUpdate st jid exe2).recon_task_ids = st.recon_task_ids := by
  unfold applyExeUpdate
  split <;> rfl

theorem tryBody_ok_recon (st : ScaleScheduler) (s : TaskStatus) (jid : Nat)
    (st3 : ScaleScheduler) (h : statusUpdateTryBody st s jid = Except.ok st3) :
    st3.recon_task_ids = st.recon_task_ids := by
  unfold statusUpdateTryBody at h
  cases hL : alookup st.running_job_exes jid with
  | none =>
      rw [hL] at h
      dsimp only at h
      injection h with h2
      rw [← h2]
  | some exe =>
      rw [hL] at h
      dsimp only at h
      cases hs : s.state <;> rw [hs] at h <;> dsimp only at h
      case TASK_STAGING =>
        injection h with h2
        rw [← h2]
        exact applyExeUpdate_recon st jid exe
      case TASK_STARTING =>
        injection h with h2
        rw [← h2]
        exact applyExeUpdate_recon st jid exe
      case TASK_RUNNING =>
        cases hb : exe.transitions_raise
        · simp only [RunningJobExe.task_start, hb, Bool.false_eq_true, if_false] at h
          injection h with h2
          rw [← h2]
          exact applyExeUpdate_recon st jid _
        · simp [RunningJobExe.task_start, hb] at h
      case TASK_FINISHED =>
        cases hb : exe.transitions_raise
        · simp only [RunningJobExe.task_complete, hb, Bool.false_eq_true, if_false] at h
          injection h with h2
          rw [← h2]
          exact applyExeUpdate_recon st jid _
        · simp [RunningJobExe.task_complete, hb] at h
      case TASK_LOST =>
        cases hb : exe.transitions_raise
        · simp only [RunningJobExe.task_lost, hb, Bool.false_eq_true, if_false] at h
          injection h with h2
          rw [← h2]
          exact applyExeUpdate_recon st jid _
        · simp [RunningJobExe.task_lost, hb] at h
      case TASK_ERROR =>
        cases hb : exe.transitions_raise
        · simp only [RunningJobExe.task_fail, hb, Bool.false_eq_true, if_false] at h
          injection h with h2
          rw [← h2]
          exact applyExeUpdate_recon st jid _
        · simp [RunningJobExe.task_fail, hb] at h
      case TASK_FAILED =>
        cases hb : exe.transitions_raise
        · simp only [RunningJobExe.task_fail, hb, Bool.false_eq_true, if_false] at h
          injection h with h2
          rw [← h2]
          exact applyExeUpdate_recon st jid _
        · simp [RunningJobExe.task_fail, hb] at h
      case TASK_KILLED =>
        cases hb : exe.transitions_raise
        · simp only [RunningJobExe.task_fail, hb, Bool.false_eq_true, if_false] at h
          injection h with h2
          rw [← h2]
          exact applyExeUpdate_recon st jid _
        · simp [RunningJobExe.task_fail, hb] at h

/-- The only effect statusUpdate ever has on the reconciliation set: the
reported task id is removed first, and (exactly on the caught-exception path)
re-added afterwards. -/
theorem statusUpdate_recon_shape (st : ScaleScheduler) (s : TaskStatus) :
    (st.statusUpdate s).recon_task_ids = removeTaskId st.recon_task_ids s.task_id ∨
    (st.statusUpdate s).recon_task_ids
      = addTaskIds (removeTaskId st.recon_task_ids s.task_id) [s.task_id] := by
  unfold ScaleScheduler.statusUpdate
  by_cases hc : task_id_starts_with s.task_id cleanup_task_id_start = true
  · left
    rw [if_pos hc]
  · rw [if_neg hc]
    cases hE : statusUpdateTryBody (statusUpdateLogged st s) s (get_job_exe_id s.task_id) with
    | ok st3 =>
        left
        dsimp only
        exact tryBody_ok_recon _ s _ st3 hE
    | error er =>
        right
        rfl

theorem reconcile_fold_recon (st : ScaleScheduler) (ids : List Nat)
    (p : List String × ScaleScheduler) :
    (ids.foldl
      (fun (p : List String × ScaleScheduler) jid =>
        match alookup st.running_job_exes jid with
        | some exe =>
            match exe.current_task with
            | some tid => (p.1 ++ [tid], p.2)
            | none => p
        | none =>
            (p.1, { p.2 with job_failures :=
              p.2.job_failures ++ [(jid, ([] : List String), "scheduler-lost")] }))
      p).2.recon_task_ids = p.2.recon_task_ids := by
  induction ids generalizing p with
  | nil => rfl
  | cons jid rest ih =>
      simp only [List.foldl_cons]
      rw [ih]
      cases hL : alookup st.running_job_exes jid with
      | none => rfl
      | some exe =>
          dsimp only
          cases hct : exe.current_task <;> rfl

/-- C5: a task id leaves the reconciliation set only through a statusUpdate
callback reporting that very id (no other scheduler event removes ids), and
every statusUpdate first removes the reported id regardless of outcome — the
resulting set is exactly the old set with the id removed, or that with the id
re-added on the caught-exception path (scale_scheduler.py lines 241-291 and
the other callbacks). -/
theorem C5_recon_removed_only_by_status :
    (∀ (st : ScaleScheduler) (e : SchedulerEvent) (tid : String),
      tid ∈ st.recon_task_ids → tid ∉ (schedulerStep st e).recon_task_ids →
      ∃ s : TaskStatus, e = SchedulerEvent.statusUpdate s ∧ s.task_id = tid) ∧
    (∀ (st : ScaleScheduler) (s : TaskStatus),
      (st.statusUpdate s).recon_task_ids = removeTaskId st.recon_task_ids s.task_id ∨
      (st.statusUpdate s).recon_task_ids
        = addTaskIds (removeTaskId st.recon_task_ids s.task_id) [s.task_id]) := by
  constructor
  · intro st e tid hmem hnot
    cases e with
    | resourceOffers offers => exact absurd hmem hnot
    | offerRescinded oid => exact absurd hmem hnot
    | frameworkMessage aid msg => exact absurd hmem hnot
    | executorLost aid => exact absurd hmem hnot
    | errorMsg msg => exact absurd hmem hnot
    | statusUpdate s =>
        refine ⟨s, rfl, ?_⟩
        by_contra hne
        apply hnot
        show tid ∈ (st.statusUpdate s).recon_task_ids
        have htne : tid ≠ s.task_id := fun hq => hne hq.symm
        rcases statusUpdate_recon_shape st s with h | h
        · rw [h]
          exact (mem_removeTaskId_iff _ _ _).mpr ⟨hmem, htne⟩
        · rw [h]
          exact (mem_addTaskIds_iff _ _ _).mpr
            (Or.inl ((mem_removeTaskId_iff _ _ _).mpr ⟨hmem, htne⟩))
    | slaveLost aid started =>
        exfalso
        apply hnot
        show tid ∈ (st.slaveLost aid started).recon_task_ids
        unfold ScaleScheduler.slaveLost
        cases hnode : alookup st.nodes aid
        · exact hmem
        · exact foldLost_recon_mono started _ _ hmem
    | reconcileRunningJobs ids =>
        exfalso
        apply hnot
        show tid ∈ (reconcile_running_jobs st ids).recon_task_ids
        unfold reconcile_running_jobs
        refine (mem_addTaskIds_iff _ _ _).mpr (Or.inl ?_)
        rw [reconcile_fold_recon]
        exact hmem
  · intro st s
    exact statusUpdate_recon_shape st s

/-- Witness for C5: a status update for task 9_t (in the reconciliation set,
unknown to the registry) is the only event shape that can explain the id
leaving the set. -/
theorem C5_recon_removed_only_by_status_witness :
    ∃ s : TaskStatus, SchedulerEvent.statusUpdate statusW5 = SchedulerEvent.statusUpdate s ∧
      s.task_id = "9_t" :=
  C5_recon_removed_only_by_status.1 schedW5 (SchedulerEvent.statusUpdate statusW5) "9_t"
    (by decide) (by decide)
